import Mathlib

/-!
Verification of the `pid_control` repository: a shallow embedding of
`pid_control/pid_control.py` (the `Robot` kinematic model and the
single-parameter `twiddle` optimizer) and of the vector coordinate-ascent
`twiddle` defined inside `tests/test_pid_control.py`.

The optimizer code manipulates Python floats with exact control flow
(comparisons, exact-key dict lookups); it is embedded over `ℚ` so that all
of its operations are executable and decidable.  The kinematic model uses
trigonometric functions and π, so it is embedded over `ℝ`.
-/

/-! ## Single-parameter twiddle (`pid_control.twiddle`, lines 85-161)

The Python loop body is `twiddleStep`; the dictionary `pastCalls` is an
association list with exact-key lookup; the `calls` field records every
argument on which the objective `objFunction` is actually invoked (each
`score = objFunction(x, args)` call site appends to it).  The objective
`objFunction(x, args)` is embedded as `f : ℚ → ℚ` with `args` absorbed.
The unbounded `while delta > tolerance` loop is embedded with explicit
fuel: `twiddleIter` runs at most `n` iterations of the guarded body, and
`twiddleLoop` additionally reports (via `Option`) whether the guard became
false, i.e. whether the Python loop actually returned.
-/

/-- Exact-key lookup in the embedded `pastCalls` dictionary
(`x not in pastCalls` / `pastCalls[x]`). -/
def lookupQ : List (ℚ × ℚ) → ℚ → Option ℚ
  | [], _ => none
  | (a, s) :: rest, x => if x = a then some s else lookupQ rest x

/-- The upper-bound clamp of the loop body:
`if x + delta > domain[1]: delta = abs(domain[1] - x) / 2`. -/
def upDelta (dom : ℚ × ℚ) (x delta : ℚ) : ℚ :=
  if x + delta > dom.2 then |dom.2 - x| / 2 else delta

/-- The lower-bound clamp of the loop body:
`if x - delta < domain[0]: delta = abs(domain[0] - x) / 2`. -/
def downDelta (dom : ℚ × ℚ) (x delta : ℚ) : ℚ :=
  if x - delta < dom.1 then |dom.1 - x| / 2 else delta

/-- State of the single-parameter twiddle loop: current `x`, current
`delta`, `bestScore`, the memo dictionary `pastCalls`, plus the
instrumentation list `calls` of arguments the objective was invoked on. -/
structure TwState where
  x : ℚ
  delta : ℚ
  bestScore : ℚ
  pastCalls : List (ℚ × ℚ)
  calls : List ℚ

/-- The evaluation idiom used at both call sites of the loop body:
`if x not in pastCalls: score = objFunction(x, args); pastCalls[x] = score`
followed by `score = pastCalls[x]`.  Returns the score, the updated
dictionary and the updated invocation log. -/
def probe (f : ℚ → ℚ) (past : List (ℚ × ℚ)) (calls : List ℚ) (x : ℚ) :
    ℚ × List (ℚ × ℚ) × List ℚ :=
  match lookupQ past x with
  | none => (f x, (x, f x) :: past, calls ++ [x])
  | some s => (s, past, calls)

/-- One execution of the body of `while delta > tolerance` in
`pid_control.twiddle` (lines 119-158). -/
def twiddleStep (f : ℚ → ℚ) (dom : ℚ × ℚ) (st : TwState) : TwState :=
  let d1 := upDelta dom st.x st.delta
  let x1 := st.x + d1
  let pr1 := probe f st.pastCalls st.calls x1
  if pr1.1 > st.bestScore then
    ⟨x1, d1 * 2, pr1.1, pr1.2.1, pr1.2.2⟩
  else
    let d2 := downDelta dom x1 d1
    let x2 := x1 - 2 * d2
    let pr2 := probe f pr1.2.1 pr1.2.2 x2
    if pr2.1 > st.bestScore then
      ⟨x2, d2 * 2, pr2.1, pr2.2.1, pr2.2.2⟩
    else
      ⟨x2 + d2, d2 * (1 / 2), st.bestScore, pr2.2.1, pr2.2.2⟩

/-- The state just before the loop (lines 112-117): `x = init`,
`delta = 0.1`, `bestScore = objFunction(init, args)`, the initial score
memoised, and one objective invocation recorded. -/
def twiddleInit (f : ℚ → ℚ) (init : ℚ) : TwState :=
  ⟨init, 1 / 10, f init, [(init, f init)], [init]⟩

/-- Runs at most `n` guarded iterations of the loop body (stops early as
soon as the guard `delta > tolerance` is false). -/
def twiddleIter (f : ℚ → ℚ) (dom : ℚ × ℚ) (tol : ℚ) : ℕ → TwState → TwState
  | 0, st => st
  | n + 1, st =>
    if st.delta > tol then twiddleIter f dom tol n (twiddleStep f dom st) else st

/-- Fuelled loop that also reports termination: `some st` exactly when the
guard `delta > tolerance` became false within the fuel budget, i.e. when
the Python `while` loop exits and the function returns. -/
def twiddleLoop (f : ℚ → ℚ) (dom : ℚ × ℚ) (tol : ℚ) : ℕ → TwState → Option TwState
  | 0, st => if st.delta > tol then none else some st
  | n + 1, st =>
    if st.delta > tol then twiddleLoop f dom tol n (twiddleStep f dom st) else some st

/-- The whole of `pid_control.twiddle` up to the final `return`, with fuel. -/
def twiddleRun (f : ℚ → ℚ) (init tol : ℚ) (dom : ℚ × ℚ) (fuel : ℕ) : Option TwState :=
  twiddleLoop f dom tol fuel (twiddleInit f init)

/-- The returned dictionary `{"parameter": x, "score": bestScore}`
(lines 160-161), embedded as a pair. -/
def twiddleResult (f : ℚ → ℚ) (init tol : ℚ) (dom : ℚ × ℚ) (fuel : ℕ) :
    Option (ℚ × ℚ) :=
  (twiddleRun f init tol dom fuel).map (fun st => (st.x, st.bestScore))

/-! ## Vector coordinate-ascent twiddle (`tests/test_pid_control.py`, lines 168-198)

The objective `run(make_robot(), p)` is a pure function of the parameter
list (a fresh robot is built for every evaluation), embedded as
`err : List ℚ → ℚ`.  `axisStep` is the body of `for i in range(len(p))`,
embedded exactly as written — including `p[i] -= 2.*p[i]` — and `sweep` is
one full pass of that `for` loop.  `twiddleVec` is the whole function: the
`return p, best_err` statement is indented inside the `while` loop, so the
function returns at the end of the first sweep whenever the loop is entered
at all, and falls off the end (Python `None`, embedded as `none`) when
`sum(dp) > tol` fails initially. -/

/-- Body of `for i in range(len(p))` in the test-file twiddle
(lines 177-196), on state `(p, dp, best_err)`. -/
def axisStep (err : List ℚ → ℚ) (st : List ℚ × List ℚ × ℚ) (i : ℕ) :
    List ℚ × List ℚ × ℚ :=
  let p := st.1
  let dp := st.2.1
  let best := st.2.2
  let p1 := p.set i (p.getD i 0 + dp.getD i 0)
  let e1 := err p1
  if e1 < best then
    (p1, dp.set i (dp.getD i 0 * (11 / 10)), e1)
  else
    let p2 := p1.set i (p1.getD i 0 - 2 * p1.getD i 0)
    let e2 := err p2
    if e2 < best then
      (p2, dp.set i (dp.getD i 0 * (11 / 10)), e2)
    else
      (p2.set i (p2.getD i 0 + dp.getD i 0), dp.set i (dp.getD i 0 * (9 / 10)), best)

/-- One full pass of `for i in range(len(p))`. -/
def sweep (err : List ℚ → ℚ) (st : List ℚ × List ℚ × ℚ) : List ℚ × List ℚ × ℚ :=
  (List.range st.1.length).foldl (axisStep err) st

/-- The whole test-file `twiddle(tol)` (lines 168-198): `p = [0,0,0]`,
`dp = [1,1,1]`, `best_err = run(make_robot(), p)`; if `sum(dp) > tol` the
loop is entered, one sweep runs, and `return p, best_err` executes (it is
inside the `while` body); otherwise the function falls through and returns
`None`. -/
def twiddleVec (err : List ℚ → ℚ) (tol : ℚ) : Option (List ℚ × ℚ) :=
  let p : List ℚ := [0, 0, 0]
  let dp : List ℚ := [1, 1, 1]
  let best := err p
  if dp.sum > tol then
    let st := sweep err (p, dp, best)
    some (st.1, st.2.2)
  else
    none

/-! ## The kinematic vehicle (`pid_control.Robot`, lines 9-82)

The model is embedded over `ℝ`.  Python `a % b` on floats (for `b > 0`)
is `fmod a b = a - b * ⌊a / b⌋`.  `random.gauss(mu, sigma)` draws
`mu + sigma * z` for a standard-normal variate `z`; the draw `z` is made
an explicit argument of `move`, so that `move` is a pure function of the
pose, the command and the two draws consumed by the step. -/

/-- Python float `a % b`: `a - b * floor(a / b)`. -/
noncomputable def fmod (a b : ℝ) : ℝ := a - b * ⌊a / b⌋

/-- `random.gauss(mean, stddev)` with its standard-normal draw `z` made
explicit: `mean + stddev * z`.  When `stddev = 0` this is exactly `mean`. -/
def gauss (mean stddev z : ℝ) : ℝ := mean + stddev * z

/-- The `Robot` state: pose, wheelbase and noise/drift parameters. -/
structure Robot where
  x : ℝ
  y : ℝ
  orientation : ℝ
  length : ℝ
  steering_noise : ℝ
  distance_noise : ℝ
  steering_drift : ℝ

/-- `Robot.__init__(length=20.0)`: pose `(0, 0, 0)`, zero noise and drift. -/
def Robot.init (length : ℝ := 20) : Robot :=
  ⟨0, 0, 0, length, 0, 0, 0⟩

/-- `Robot.set(x, y, orientation)`: assigns the pose and reduces the
orientation modulo `2π`. -/
noncomputable def Robot.set (r : Robot) (x y orientation : ℝ) : Robot :=
  { r with x := x, y := y, orientation := fmod orientation (2 * Real.pi) }

/-- `Robot.set_noise(steering_noise, distance_noise)`. -/
def Robot.setNoise (r : Robot) (steering_noise distance_noise : ℝ) : Robot :=
  { r with steering_noise := steering_noise, distance_noise := distance_noise }

/-- `Robot.set_steering_drift(drift)`. -/
def Robot.setSteeringDrift (r : Robot) (drift : ℝ) : Robot :=
  { r with steering_drift := drift }

/-- `Robot.move(steering, distance, tolerance=0.001, max_steering_angle=pi/4)`
(lines 45-79), with the two standard-normal draws `zs`, `zd` consumed by
`random.gauss` passed explicitly. -/
noncomputable def Robot.move (r : Robot) (steering distance zs zd : ℝ)
    (tolerance : ℝ := 0.001) (max_steering_angle : ℝ := Real.pi / 4) : Robot :=
  let steering := if steering > max_steering_angle then max_steering_angle else steering
  let steering := if steering < -max_steering_angle then -max_steering_angle else steering
  let distance := if distance < 0 then 0 else distance
  let steering2 := gauss steering r.steering_noise zs
  let distance2 := gauss distance r.distance_noise zd
  let steering2 := steering2 + r.steering_drift
  let turn := Real.tan steering2 * distance2 / r.length
  if |turn| < tolerance then
    { r with
      x := r.x + distance2 * Real.cos r.orientation
      y := r.y + distance2 * Real.sin r.orientation
      orientation := fmod (r.orientation + turn) (2 * Real.pi) }
  else
    let radius := distance2 / turn
    let cx := r.x - Real.sin r.orientation * radius
    let cy := r.y + Real.cos r.orientation * radius
    let orient2 := fmod (r.orientation + turn) (2 * Real.pi)
    { r with
      orientation := orient2
      x := cx + Real.sin orient2 * radius
      y := cy - Real.cos orient2 * radius }

/-- Runs a list of `(steering, distance)` commands through `move`, feeding
the step draws from the stream `noise` starting at index `k`, and returns
the trajectory of poses `(x, y, orientation)` recorded after each call. -/
noncomputable def runTraj (r : Robot) :
    List (ℝ × ℝ) → (ℕ → ℝ × ℝ) → ℕ → List (ℝ × ℝ × ℝ)
  | [], _, _ => []
  | c :: rest, noise, k =>
    let r2 := r.move c.1 c.2 (noise k).1 (noise k).2
    (r2.x, r2.y, r2.orientation) :: runTraj r2 rest noise (k + 1)

/-- `n` repeated `move(0, d)` calls (straight-steering commands), with the
noise draws fixed at `0`. -/
noncomputable def moveN (r : Robot) (d : ℝ) : ℕ → Robot
  | 0 => r
  | n + 1 => moveN (r.move 0 d 0 0) d n

/-- Constant draw stream used in the witness for C7. -/
noncomputable def noiseA : ℕ → ℝ × ℝ := fun _ => (1, 2)

/-- A different constant draw stream used in the witness for C7. -/
noncomputable def noiseB : ℕ → ℝ × ℝ := fun _ => (-1, 5)

/-- A valid initial pose whose heading points along the positive y-axis. -/
noncomputable def robotC8 : Robot := ⟨0, 0, Real.pi / 2, 20, 0, 0, 0⟩

/-- All scores in the memo are bounded by `bestScore`, and `bestScore` is
attained by a memoised entry.  (Loop invariant used for claim C5.) -/
def scoreInv (st : TwState) : Prop :=
  (∀ p ∈ st.pastCalls, p.2 ≤ st.bestScore) ∧
  ∃ p ∈ st.pastCalls, p.2 = st.bestScore

/-! ## Basic facts about `fmod` and `move` -/

theorem fmod_mem_Ico (a b : ℝ) (hb : 0 < b) : fmod a b ∈ Set.Ico 0 b := by
  have hb0 : b ≠ 0 := ne_of_gt hb
  have h : fmod a b = b * Int.fract (a / b) := by
    unfold fmod Int.fract
    rw [mul_sub, mul_div_cancel₀ a hb0]
  rw [h]
  constructor
  · exact mul_nonneg hb.le (Int.fract_nonneg _)
  · calc b * Int.fract (a / b) < b * 1 := by
          exact mul_lt_mul_of_pos_left (Int.fract_lt_one _) hb
    _ = b := mul_one b

theorem fmod_zero (b : ℝ) : fmod 0 b = 0 := by
  simp [fmod]

/-- With both noise parameters zero, `move` does not depend on the two
Gaussian draws. -/
theorem move_zero_noise (r : Robot) (s d zs zd zs2 zd2 tol ms : ℝ)
    (h1 : r.steering_noise = 0) (h2 : r.distance_noise = 0) :
    r.move s d zs zd tol ms = r.move s d zs2 zd2 tol ms := by
  simp only [Robot.move, gauss, h1, h2, zero_mul, add_zero]

/-- `move` never touches the noise, drift and wheelbase fields. -/
theorem move_param_fields (r : Robot) (s d zs zd tol ms : ℝ) :
    (r.move s d zs zd tol ms).steering_noise = r.steering_noise ∧
    (r.move s d zs zd tol ms).distance_noise = r.distance_noise ∧
    (r.move s d zs zd tol ms).steering_drift = r.steering_drift ∧
    (r.move s d zs zd tol ms).length = r.length := by
  simp only [Robot.move, apply_ite Robot.steering_noise, apply_ite Robot.distance_noise,
    apply_ite Robot.steering_drift, apply_ite Robot.length, ite_self, and_self]

/-- With zero drift and zero noise, a `move` with commanded steering `0`
and nonnegative commanded distance `d` takes the straight-line branch and
advances by `d` along the current heading. -/
theorem move_zero_steering (r : Robot) (d : ℝ)
    (hdr : r.steering_drift = 0) (hs : r.steering_noise = 0)
    (hd2 : r.distance_noise = 0) (hd : 0 ≤ d) :
    (r.move 0 d 0 0).x = r.x + d * Real.cos r.orientation ∧
    (r.move 0 d 0 0).y = r.y + d * Real.sin r.orientation ∧
    (r.move 0 d 0 0).orientation = fmod r.orientation (2 * Real.pi) := by
  have c1 : ¬((0 : ℝ) > Real.pi / 4) := by
    rw [not_lt]
    positivity
  have c2 : ¬((0 : ℝ) < -(Real.pi / 4)) := by
    rw [not_lt, neg_nonpos]
    positivity
  have c3 : ¬(d < 0) := not_lt.2 hd
  simp only [Robot.move, gauss, hs, hd2, hdr, if_neg c1, if_neg c2, if_neg c3,
    zero_mul, add_zero, zero_add, Real.tan_zero, zero_div, abs_zero]
  norm_num

/-! ## Claim C1: orientation normalization -/

/-- C1: after every `move` call (in both the straight-line and the
bicycle-turn branch) and after every `set` call, the `orientation` field
lies in `[0, 2π)`, for every prior state and all argument values; hence it
holds after every call of any call sequence. -/
theorem C1_orientation_normalized :
    (∀ (r : Robot) (s d zs zd tol ms : ℝ),
      (r.move s d zs zd tol ms).orientation ∈ Set.Ico 0 (2 * Real.pi)) ∧
    (∀ (r : Robot) (px py po : ℝ),
      (r.set px py po).orientation ∈ Set.Ico 0 (2 * Real.pi)) := by
  constructor
  · intro r s d zs zd tol ms
    simp only [Robot.move, apply_ite Robot.orientation, ite_self]
    exact fmod_mem_Ico _ _ Real.two_pi_pos
  · intro r px py po
    exact fmod_mem_Ico _ _ Real.two_pi_pos

/-! ## Claim C7: zero-noise determinism -/

/-- C7: with both noise parameters zero, running the same command list
from the same initial pose yields the identical trajectory, whatever
Gaussian draws the two runs consume. -/
theorem C7_zero_noise_determinism (r : Robot) (cmds : List (ℝ × ℝ))
    (noise1 noise2 : ℕ → ℝ × ℝ) (k1 k2 : ℕ)
    (h1 : r.steering_noise = 0) (h2 : r.distance_noise = 0) :
    runTraj r cmds noise1 k1 = runTraj r cmds noise2 k2 := by
  induction cmds generalizing r k1 k2 with
  | nil => rfl
  | cons c rest ih =>
    simp only [runTraj]
    have hm : r.move c.1 c.2 (noise1 k1).1 (noise1 k1).2 =
        r.move c.1 c.2 (noise2 k2).1 (noise2 k2).2 :=
      move_zero_noise r c.1 c.2 _ _ _ _ _ _ h1 h2
    rw [hm]
    obtain ⟨f1, f2, _, _⟩ :=
      move_param_fields r c.1 c.2 (noise2 k2).1 (noise2 k2).2 0.001 (Real.pi / 4)
    rw [ih (r.move c.1 c.2 (noise2 k2).1 (noise2 k2).2) (k1 + 1) (k2 + 1)
      (f1.trans h1) (f2.trans h2)]

/-- Witness for C7 at a concrete robot and command list: the noise fields
of a freshly constructed robot are zero, and two runs consuming different
draws produce the same trajectory. -/
theorem C7_witness :
    (Robot.init 20).steering_noise = 0 ∧ (Robot.init 20).distance_noise = 0 ∧
    runTraj (Robot.init 20) [(0, 1), (1, 2)] noiseA 0 =
      runTraj (Robot.init 20) [(0, 1), (1, 2)] noiseB 3 :=
  ⟨rfl, rfl,
    C7_zero_noise_determinism (Robot.init 20) [(0, 1), (1, 2)] noiseA noiseB 0 3 rfl rfl⟩

/-! ## Claim C8: straight-line consistency -/

/-- C8 (amended): with zero drift and zero noise, commanding
`steering = 0` repeatedly with a nonnegative distance from a pose whose
heading is `0` (along the positive x-axis) leaves `y` and `orientation`
unchanged and advances `x` by exactly `d` per step. -/
theorem C8_straight_line (r : Robot) (d : ℝ) (n : ℕ)
    (ho : r.orientation = 0) (hdr : r.steering_drift = 0)
    (hs : r.steering_noise = 0) (hd2 : r.distance_noise = 0) (hd : 0 ≤ d) :
    (moveN r d n).x = r.x + n * d ∧ (moveN r d n).y = r.y ∧
    (moveN r d n).orientation = 0 := by
  induction n generalizing r with
  | zero => simp [moveN, ho]
  | succ n ih =>
    obtain ⟨hx, hy, hor⟩ := move_zero_steering r d hdr hs hd2 hd
    obtain ⟨f1, f2, f3, _⟩ := move_param_fields r 0 d 0 0 0.001 (Real.pi / 4)
    have ho2 : (r.move 0 d 0 0).orientation = 0 := by rw [hor, ho, fmod_zero]
    obtain ⟨ihx, ihy, ihor⟩ :=
      ih (r.move 0 d 0 0) ho2 (f3.trans hdr) (f1.trans hs) (f2.trans hd2)
    refine ⟨?_, ?_, ihor⟩
    · rw [show moveN r d (n + 1) = moveN (r.move 0 d 0 0) d n from rfl, ihx, hx, ho,
        Real.cos_zero, mul_one]
      push_cast
      ring
    · rw [show moveN r d (n + 1) = moveN (r.move 0 d 0 0) d n from rfl, ihy, hy, ho,
        Real.sin_zero, mul_zero, add_zero]

/-- Witness for C8 at a concrete robot: two steps of distance `1` from the
origin pose move `x` to `2` and leave `y` and `orientation` at `0`. -/
theorem C8_witness :
    (Robot.init 20).orientation = 0 ∧ (0 : ℝ) ≤ 1 ∧
    (moveN (Robot.init 20) 1 2).x = (Robot.init 20).x + 2 * 1 ∧
    (moveN (Robot.init 20) 1 2).y = (Robot.init 20).y ∧
    (moveN (Robot.init 20) 1 2).orientation = 0 := by
  have h := C8_straight_line (Robot.init 20) 1 2 rfl rfl rfl rfl (by norm_num)
  exact ⟨rfl, by norm_num, by rw [h.1]; norm_num, h.2.1, h.2.2⟩

/-- C8 counterexample: the claim is not true for every initial pose — from
the pose `(0, 0, π/2)`, a single `move(0, 1)` with zero drift and noise
changes `y` (by `sin(π/2) = 1`), so `y` does not remain unchanged. -/
theorem C8_counterexample : (robotC8.move 0 1 0 0).y ≠ robotC8.y := by
  obtain ⟨_, hy, _⟩ := move_zero_steering robotC8 1 rfl rfl rfl (by norm_num)
  rw [hy]
  simp [robotC8, Real.sin_pi_div_two]

/-! ## Claim C10: a tolerance of at least 0.1 skips the loop -/

/-- C10: when `tolerance ≥ 0.1` the guard `delta > tolerance` is false at
entry, so the loop body never executes; the objective has been invoked
exactly once (at `init`) and the returned dictionary is
`{"parameter": init, "score": f init}`. -/
theorem C10_large_tolerance (f : ℚ → ℚ) (init tol : ℚ) (dom : ℚ × ℚ) (fuel : ℕ)
    (h : 1 / 10 ≤ tol) :
    twiddleRun f init tol dom fuel = some (twiddleInit f init) ∧
    (twiddleInit f init).calls = [init] ∧
    twiddleResult f init tol dom fuel = some (init, f init) := by
  have hg : ¬((twiddleInit f init).delta > tol) := not_lt.2 h
  have hrun : twiddleRun f init tol dom fuel = some (twiddleInit f init) := by
    cases fuel with
    | zero => rw [twiddleRun, twiddleLoop, if_neg hg]
    | succ n => rw [twiddleRun, twiddleLoop, if_neg hg]
  refine ⟨hrun, rfl, ?_⟩
  rw [twiddleResult, hrun]
  rfl

/-- Witness for C10 at a concrete objective, initial value and tolerance. -/
theorem C10_witness :
    (1 / 10 : ℚ) ≤ 1 / 2 ∧
    twiddleRun (fun x => x) (1 / 4) (1 / 2) (0, 1) 5 =
      some (twiddleInit (fun x => x) (1 / 4)) ∧
    twiddleResult (fun x => x) (1 / 4) (1 / 2) (0, 1) 5 = some (1 / 4, 1 / 4) := by
  have h := C10_large_tolerance (fun x => x) (1 / 4) (1 / 2) (0, 1) 5 (by norm_num)
  exact ⟨by norm_num, h.1, by rw [h.2.2]⟩

/-! ## Claim C6: the objective is never invoked twice on the same input

Invariant: the invocation log has no duplicates, and every logged input is
a key of the memo dictionary; `probe` calls the objective only on a cache
miss and immediately memoises the result. -/

theorem probe_calls_inv (f : ℚ → ℚ) (past : List (ℚ × ℚ)) (calls : List ℚ) (x : ℚ)
    (h1 : calls.Nodup) (h2 : ∀ c ∈ calls, (lookupQ past c).isSome) :
    ((probe f past calls x).2.2).Nodup ∧
    ∀ c ∈ (probe f past calls x).2.2, (lookupQ (probe f past calls x).2.1 c).isSome := by
  unfold probe
  cases h : lookupQ past x with
  | some s => exact ⟨h1, h2⟩
  | none =>
    constructor
    · refine List.nodup_append.2 ⟨h1, List.nodup_singleton x, ?_⟩
      intro a ha hax
      rw [List.mem_singleton] at hax
      subst hax
      have := h2 a ha
      rw [h] at this
      simp at this
    · intro c hc
      rcases List.mem_append.1 hc with hc | hc
      · rw [lookupQ]
        split
        · simp
        · exact h2 c hc
      · rw [List.mem_singleton] at hc
        subst hc
        rw [lookupQ, if_pos rfl]
        simp

theorem twiddleStep_calls_inv (f : ℚ → ℚ) (dom : ℚ × ℚ) (st : TwState)
    (h1 : st.calls.Nodup) (h2 : ∀ c ∈ st.calls, (lookupQ st.pastCalls c).isSome) :
    ((twiddleStep f dom st).calls).Nodup ∧
    ∀ c ∈ (twiddleStep f dom st).calls,
      (lookupQ (twiddleStep f dom st).pastCalls c).isSome := by
  obtain ⟨p1a, p1b⟩ := probe_calls_inv f st.pastCalls st.calls
    (st.x + upDelta dom st.x st.delta) h1 h2
  obtain ⟨p2a, p2b⟩ := probe_calls_inv f
    (probe f st.pastCalls st.calls (st.x + upDelta dom st.x st.delta)).2.1
    (probe f st.pastCalls st.calls (st.x + upDelta dom st.x st.delta)).2.2
    (st.x + upDelta dom st.x st.delta -
      2 * downDelta dom (st.x + upDelta dom st.x st.delta) (upDelta dom st.x st.delta))
    p1a p1b
  simp only [twiddleStep]
  split_ifs
  · exact ⟨p1a, p1b⟩
  · exact ⟨p2a, p2b⟩
  · exact ⟨p2a, p2b⟩

theorem twiddleIter_calls_inv (f : ℚ → ℚ) (dom : ℚ × ℚ) (tol : ℚ) (n : ℕ) (st : TwState)
    (h1 : st.calls.Nodup) (h2 : ∀ c ∈ st.calls, (lookupQ st.pastCalls c).isSome) :
    ((twiddleIter f dom tol n st).calls).Nodup ∧
    ∀ c ∈ (twiddleIter f dom tol n st).calls,
      (lookupQ (twiddleIter f dom tol n st).pastCalls c).isSome := by
  induction n generalizing st with
  | zero => exact ⟨h1, h2⟩
  | succ n ih =>
    rw [twiddleIter]
    split
    · exact ih (twiddleStep f dom st) (twiddleStep_calls_inv f dom st h1 h2).1
        (twiddleStep_calls_inv f dom st h1 h2).2
    · exact ⟨h1, h2⟩

/-- C6: the single-parameter optimizer never invokes the objective twice
with the same scalar input: for any objective, starting point, tolerance,
domain and number of loop iterations, the list of inputs the objective was
actually invoked on (including the initial evaluation at `init`) has no
duplicates. -/
theorem C6_no_duplicate_invocations (f : ℚ → ℚ) (init tol : ℚ) (dom : ℚ × ℚ) (n : ℕ) :
    ((twiddleIter f dom tol n (twiddleInit f init)).calls).Nodup := by
  refine (twiddleIter_calls_inv f dom tol n (twiddleInit f init)
    (List.nodup_singleton init) ?_).1
  intro c hc
  rw [show (twiddleInit f init).calls = [init] from rfl, List.mem_singleton] at hc
  rw [show (twiddleInit f init).pastCalls = [(init, f init)] from rfl, lookupQ, if_pos hc]
  simp

/-! ## Claim C5: what the loop returns

Invariant: every memoised score is at most `bestScore`, and some memoised
entry attains `bestScore` (`scoreInv`). -/

theorem lookupQ_mem (l : List (ℚ × ℚ)) (x s : ℚ) (h : lookupQ l x = some s) :
    (x, s) ∈ l := by
  induction l with
  | nil => exact absurd h (by rw [lookupQ]; simp)
  | cons a rest ih =>
    obtain ⟨b, t⟩ := a
    rw [lookupQ] at h
    split at h
    · rename_i hxb
      rw [Option.some.injEq] at h
      subst h
      subst hxb
      exact List.mem_cons_self _ _
    · exact List.mem_cons_of_mem _ (ih h)

/-- The score that `probe` produces is memoised in the dictionary it
returns, under the probed key. -/
theorem probe_entry_mem (f : ℚ → ℚ) (past : List (ℚ × ℚ)) (calls : List ℚ) (x : ℚ) :
    (x, (probe f past calls x).1) ∈ (probe f past calls x).2.1 := by
  unfold probe
  cases h : lookupQ past x with
  | none => exact List.mem_cons_self _ _
  | some s => exact lookupQ_mem past x s h

/-- Every entry of the dictionary returned by `probe` is either an old
entry or the newly memoised probe result. -/
theorem probe_past_sub (f : ℚ → ℚ) (past : List (ℚ × ℚ)) (calls : List ℚ) (x : ℚ) :
    ∀ p ∈ (probe f past calls x).2.1,
      p ∈ past ∨ p = (x, (probe f past calls x).1) := by
  unfold probe
  cases h : lookupQ past x with
  | none =>
    intro p hp
    rcases List.mem_cons.1 hp with hp | hp
    · exact Or.inr hp
    · exact Or.inl hp
  | some s => exact fun p hp => Or.inl hp

/-- `probe` never removes dictionary entries. -/
theorem probe_past_mono (f : ℚ → ℚ) (past : List (ℚ × ℚ)) (calls : List ℚ) (x : ℚ)
    (p : ℚ × ℚ) (hp : p ∈ past) : p ∈ (probe f past calls x).2.1 := by
  unfold probe
  cases lookupQ past x with
  | none => exact List.mem_cons_of_mem _ hp
  | some s => exact hp

/-- A cached probe score is bounded by `bestScore` whenever the memo bound
holds of the dictionary probed. -/
theorem probe_score_le (f : ℚ → ℚ) (past : List (ℚ × ℚ)) (calls : List ℚ) (x b : ℚ)
    (hub : ∀ p ∈ past, p.2 ≤ b) (hmiss : f x ≤ b) : (probe f past calls x).1 ≤ b := by
  unfold probe
  cases h : lookupQ past x with
  | none => exact hmiss
  | some s => exact hub _ (lookupQ_mem past x s h)

theorem twiddleStep_scoreInv (f : ℚ → ℚ) (dom : ℚ × ℚ) (st : TwState)
    (h : scoreInv st) : scoreInv (twiddleStep f dom st) := by
  obtain ⟨hub, p0, hp0, hp0e⟩ := h
  simp only [twiddleStep, scoreInv]
  split_ifs with hA hB
  · refine ⟨?_, ?_⟩
    · intro p hp
      rcases probe_past_sub f st.pastCalls st.calls _ p hp with hm | hm
      · exact (hub p hm).trans (le_of_lt hA)
      · rw [hm]
    · exact ⟨_, probe_entry_mem f st.pastCalls st.calls _, rfl⟩
  · refine ⟨?_, ?_⟩
    · intro p hp
      rcases probe_past_sub f _ _ _ p hp with hm | hm
      · rcases probe_past_sub f st.pastCalls st.calls _ p hm with hm2 | hm2
        · exact (hub p hm2).trans (le_of_lt hB)
        · rw [hm2]
          exact (not_lt.1 hA).trans (le_of_lt hB)
      · rw [hm]
    · exact ⟨_, probe_entry_mem f _ _ _, rfl⟩
  · refine ⟨?_, ?_⟩
    · intro p hp
      rcases probe_past_sub f _ _ _ p hp with hm | hm
      · rcases probe_past_sub f st.pastCalls st.calls _ p hm with hm2 | hm2
        · exact hub p hm2
        · rw [hm2]
          exact not_lt.1 hA
      · rw [hm]
        exact not_lt.1 hB
    · exact ⟨p0, probe_past_mono f _ _ _ p0 (probe_past_mono f _ _ _ p0 hp0), hp0e⟩

theorem twiddleLoop_some (f : ℚ → ℚ) (dom : ℚ × ℚ) (tol : ℚ) (n : ℕ)
    (st st2 : TwState) (h : twiddleLoop f dom tol n st = some st2)
    (hinv : scoreInv st) : st2.delta ≤ tol ∧ scoreInv st2 := by
  induction n generalizing st with
  | zero =>
    rw [twiddleLoop] at h
    split at h
    · exact absurd h (by simp)
    · next hguard =>
        cases h
        exact ⟨not_lt.1 hguard, hinv⟩
  | succ n ih =>
    rw [twiddleLoop] at h
    split at h
    · exact ih (twiddleStep f dom st) h (twiddleStep_scoreInv f dom st hinv)
    · next hguard =>
        cases h
        exact ⟨not_lt.1 hguard, hinv⟩

/-- C5 (amended): whenever the loop returns (`twiddleLoop` yields `some`),
the final `delta` is at most the tolerance, the returned `"score"` is the
largest objective value among all memoised evaluations, and some evaluated
input attains it.  (The returned `"parameter"` need not attain it — see the
counterexample.) -/
theorem C5_return_best_score (f : ℚ → ℚ) (init tol : ℚ) (dom : ℚ × ℚ) (fuel : ℕ)
    (st2 : TwState) (h : twiddleRun f init tol dom fuel = some st2) :
    st2.delta ≤ tol ∧ (∀ p ∈ st2.pastCalls, p.2 ≤ st2.bestScore) ∧
    ∃ p ∈ st2.pastCalls, p.2 = st2.bestScore := by
  have hinv : scoreInv (twiddleInit f init) := by
    refine ⟨?_, ⟨(init, f init), ?_, rfl⟩⟩
    · intro p hp
      rw [show (twiddleInit f init).pastCalls = [(init, f init)] from rfl,
        List.mem_singleton] at hp
      rw [hp]
      exact le_rfl
    · rw [show (twiddleInit f init).pastCalls = [(init, f init)] from rfl]
      exact List.mem_singleton.2 rfl
  obtain ⟨hd, hinv2⟩ := twiddleLoop_some f dom tol fuel (twiddleInit f init) st2 h hinv
  exact ⟨hd, hinv2.1, hinv2.2⟩

/-- Witness for C5 at a concrete terminating run. -/
theorem C5_witness :
    twiddleRun (fun x => x) 7 (1 / 2) (0, 1) 0 = some (twiddleInit (fun x => x) 7) ∧
    ((twiddleInit (fun x => x) 7).delta ≤ 1 / 2 ∧
      (∀ p ∈ (twiddleInit (fun x => x) 7).pastCalls,
        p.2 ≤ (twiddleInit (fun x => x) 7).bestScore) ∧
      ∃ p ∈ (twiddleInit (fun x => x) 7).pastCalls,
        p.2 = (twiddleInit (fun x => x) 7).bestScore) := by
  have hrun : twiddleRun (fun x => x) 7 (1 / 2) (0, 1) 0 =
      some (twiddleInit (fun x => x) 7) := by
    rw [twiddleRun, twiddleLoop, if_neg (by norm_num [twiddleInit])]
  exact ⟨hrun, C5_return_best_score (fun x => x) 7 (1 / 2) (0, 1) 0 _ hrun⟩

/-- C5 counterexample: with objective `f x = -x`, `init = -3/50`,
`tolerance = 1/100` and `domain = (0, 100)`, the loop terminates after one
iteration returning `{"parameter": 1/50, "score": 3/50}`, yet
`f (1/50) = -1/50 ≠ 3/50`: the returned parameter does not achieve the
returned score (the lower-bound clamp changed `delta` between the two
probes, so the final `x += delta` revert lands on a never-evaluated
point). -/
theorem C5_counterexample :
    twiddleResult (fun x => -x) (-3 / 50) (1 / 100) (0, 100) 1 = some (1 / 50, 3 / 50) ∧
    (fun x : ℚ => -x) (1 / 50) ≠ 3 / 50 := by
  constructor
  · norm_num [twiddleResult, twiddleRun, twiddleLoop, twiddleInit, twiddleStep, probe,
      lookupQ, upDelta, downDelta, abs_of_pos, abs_of_nonneg]
  · norm_num

/-! ## Claim C9: step-size invariants of the two optimizer variants -/

theorem upDelta_nonneg (dom : ℚ × ℚ) (x δ : ℚ) (h : 0 ≤ δ) : 0 ≤ upDelta dom x δ := by
  rw [upDelta]
  split
  · positivity
  · exact h

theorem downDelta_nonneg (dom : ℚ × ℚ) (x δ : ℚ) (h : 0 ≤ δ) : 0 ≤ downDelta dom x δ := by
  rw [downDelta]
  split
  · positivity
  · exact h

theorem twiddleStep_delta_nonneg (f : ℚ → ℚ) (dom : ℚ × ℚ) (st : TwState)
    (h : 0 ≤ st.delta) : 0 ≤ (twiddleStep f dom st).delta := by
  have h1 := upDelta_nonneg dom st.x st.delta h
  have h2 := downDelta_nonneg dom (st.x + upDelta dom st.x st.delta)
    (upDelta dom st.x st.delta) h1
  simp only [twiddleStep]
  split_ifs
  · exact mul_nonneg h1 (by norm_num)
  · exact mul_nonneg h2 (by norm_num)
  · exact mul_nonneg h2 (by norm_num)

theorem twiddleIter_delta_nonneg (f : ℚ → ℚ) (dom : ℚ × ℚ) (tol : ℚ) (n : ℕ)
    (st : TwState) (h : 0 ≤ st.delta) : 0 ≤ (twiddleIter f dom tol n st).delta := by
  induction n generalizing st with
  | zero => exact h
  | succ n ih =>
    rw [twiddleIter]
    split
    · exact ih (twiddleStep f dom st) (twiddleStep_delta_nonneg f dom st h)
    · exact h

/-- Setting index `i` of a positive list to `getD i 0` times a positive
factor keeps all entries positive. -/
theorem set_scale_pos (l : List ℚ) (i : ℕ) (c : ℚ)
    (h : ∀ d ∈ l, 0 < d) (hc : 0 < c) :
    ∀ d ∈ l.set i (l.getD i 0 * c), 0 < d := by
  by_cases hi : l.length ≤ i
  · rw [List.set_eq_of_length_le hi]
    exact h
  · intro d hd
    rcases List.mem_or_eq_of_mem_set hd with hm | hm
    · exact h d hm
    · subst hm
      have hlt : i < l.length := by omega
      have hmem : l.getD i 0 ∈ l := by
        rw [List.getD_eq_getElem l 0 hlt]
        exact List.getElem_mem hlt
      exact mul_pos (h _ hmem) hc

theorem axisStep_dp_pos (err : List ℚ → ℚ) (st : List ℚ × List ℚ × ℚ) (i : ℕ)
    (h : ∀ d ∈ st.2.1, 0 < d) : ∀ d ∈ (axisStep err st i).2.1, 0 < d := by
  simp only [axisStep]
  split_ifs
  · exact set_scale_pos st.2.1 i (11 / 10) h (by norm_num)
  · exact set_scale_pos st.2.1 i (11 / 10) h (by norm_num)
  · exact set_scale_pos st.2.1 i (9 / 10) h (by norm_num)

theorem foldl_axisStep_dp_pos (err : List ℚ → ℚ) (l : List ℕ)
    (st : List ℚ × List ℚ × ℚ) (h : ∀ d ∈ st.2.1, 0 < d) :
    ∀ d ∈ (l.foldl (axisStep err) st).2.1, 0 < d := by
  induction l generalizing st with
  | nil => exact h
  | cons i rest ih => exact ih (axisStep err st i) (axisStep_dp_pos err st i h)

/-- C9 (amended): step sizes never become negative — the single-parameter
`delta` stays nonnegative through any number of iterations, and in the
vector variant every `dp[i]` stays strictly positive across a sweep
(success multiplies an entry by 1.1, failure by 0.9).  The original claim
that the single-parameter step never becomes exactly zero while the loop
runs is false (see the counterexample): a boundary clamp can set `delta`
to exactly `0`. -/
theorem C9_step_sizes (f : ℚ → ℚ) (dom : ℚ × ℚ) (tol init : ℚ) (n : ℕ)
    (err : List ℚ → ℚ) (st : List ℚ × List ℚ × ℚ)
    (hdp : ∀ d ∈ st.2.1, 0 < d) :
    0 ≤ (twiddleIter f dom tol n (twiddleInit f init)).delta ∧
    ∀ d ∈ (sweep err st).2.1, 0 < d := by
  constructor
  · exact twiddleIter_delta_nonneg f dom tol n (twiddleInit f init) (by norm_num [twiddleInit])
  · exact foldl_axisStep_dp_pos err (List.range st.1.length) st hdp

/-- Witness for C9 at concrete parameters for both variants. -/
theorem C9_witness :
    (∀ d ∈ ([1, 1, 1] : List ℚ), 0 < d) ∧
    0 ≤ (twiddleIter (fun x => x) (0, 1) (1 / 100) 3
      (twiddleInit (fun x => x) (1 / 2))).delta ∧
    ∀ d ∈ (sweep (fun _ => (0 : ℚ)) ([0, 0, 0], [1, 1, 1], 5)).2.1, 0 < d := by
  have h := C9_step_sizes (fun x => x) (0, 1) (1 / 100) (1 / 2) 3 (fun _ => (0 : ℚ))
    ([0, 0, 0], [1, 1, 1], 5) (by norm_num [List.forall_mem_cons])
  exact ⟨by norm_num [List.forall_mem_cons], h.1, h.2⟩

/-- C9 counterexample: starting the single-parameter twiddle at
`init = -1/10` with `domain = (0, 100)`, a constant objective and
`tolerance = -1`, the lower-bound clamp of the first iteration computes
`delta = |0 - 0| / 2 = 0`, so after one iteration `delta` is exactly `0`
while the loop guard `delta > tolerance` still holds — the step size does
become exactly zero while the loop is running. -/
theorem C9_counterexample :
    (twiddleIter (fun _ => (1 : ℚ)) (0, 100) (-1) 1
      (twiddleInit (fun _ => (1 : ℚ)) (-1 / 10))).delta = 0 ∧
    (twiddleIter (fun _ => (1 : ℚ)) (0, 100) (-1) 1
      (twiddleInit (fun _ => (1 : ℚ)) (-1 / 10))).delta > -1 := by
  constructor <;>
    norm_num [twiddleIter, twiddleInit, twiddleStep, probe, lookupQ, upDelta, downDelta,
      abs_of_pos, abs_of_nonneg]

/-! ## Claim C3: domain clamping of the probe moves -/

/-- C3 (amended): when the upward clamp fires with `x ≤ max`, the probe
lands at the midpoint `(x + max)/2` — not exactly on the boundary — and
stays within the bound; when the downward clamp fires with `min ≤ x`, the
subsequent `x -= 2*delta` move lands exactly on the lower boundary.
Evaluated probe points are, however, not guaranteed to lie within
`[min, max]` (see the counterexample), because the downward clamp tests
`x - delta < min` while the move subtracts `2*delta`. -/
theorem C3_clamp_landing (dom : ℚ × ℚ) (x δ : ℚ) :
    (dom.2 < x + δ → x ≤ dom.2 →
      x + upDelta dom x δ = (x + dom.2) / 2 ∧ x + upDelta dom x δ ≤ dom.2) ∧
    (x - δ < dom.1 → dom.1 ≤ x → x - 2 * downDelta dom x δ = dom.1) := by
  constructor
  · intro h1 h2
    rw [upDelta, if_pos h1, abs_of_nonneg (by linarith)]
    constructor
    · ring
    · linarith
  · intro h1 h2
    rw [downDelta, if_pos h1, abs_of_nonpos (by linarith)]
    ring

/-- Witness for C3 at `dom = (0, 1)`, `x = 1/2`, `δ = 1`. -/
theorem C3_witness :
    ((1 : ℚ) < 1 / 2 + 1) ∧ ((1 / 2 : ℚ) ≤ 1) ∧
    (1 / 2 + upDelta (0, 1) (1 / 2) 1 = (1 / 2 + 1) / 2 ∧
      1 / 2 + upDelta (0, 1) (1 / 2) 1 ≤ 1) ∧
    ((1 / 2 - 1 : ℚ) < 0) ∧ ((0 : ℚ) ≤ 1 / 2) ∧
    1 / 2 - 2 * downDelta (0, 1) (1 / 2) 1 = 0 :=
  ⟨by norm_num, by norm_num,
    (C3_clamp_landing (0, 1) (1 / 2) 1).1 (by norm_num) (by norm_num),
    by norm_num, by norm_num,
    (C3_clamp_landing (0, 1) (1 / 2) 1).2 (by norm_num) (by norm_num)⟩

/-- C3 counterexample: (i) with `init = 1/20`, `domain = (0, 100)` and a
constant objective, the first iteration evaluates the objective at
`-1/20 < 0`, outside the domain — the downward move `x -= 2*delta` was not
clamped because `x - delta = 1/20 ≥ 0`; (ii) with `init = 1/2` and
`domain = (0, 11/20)`, the clamped upward probe is evaluated at `21/40`,
the midpoint, not exactly on the boundary `11/20`. -/
theorem C3_counterexample :
    ((-1 / 20 : ℚ) ∈ (twiddleIter (fun _ => (0 : ℚ)) (0, 100) (1 / 100) 1
        (twiddleInit (fun _ => (0 : ℚ)) (1 / 20))).calls ∧
      (-1 / 20 : ℚ) < 0) ∧
    ((twiddleIter (fun _ => (0 : ℚ)) (0, 11 / 20) (1 / 100) 1
        (twiddleInit (fun _ => (0 : ℚ)) (1 / 2))).calls = [1 / 2, 21 / 40, 19 / 40] ∧
      (21 / 40 : ℚ) ≠ 11 / 20) := by
  refine ⟨⟨?_, by norm_num⟩, ?_, by norm_num⟩
  · norm_num [twiddleIter, twiddleInit, twiddleStep, probe, lookupQ, upDelta, downDelta,
      abs_of_pos, abs_of_nonneg]
  · norm_num [twiddleIter, twiddleInit, twiddleStep, probe, lookupQ, upDelta, downDelta,
      abs_of_pos, abs_of_nonneg]

/-! ## Claims C2 and C4: the vector variant as written in the test file -/

/-- C2: evaluating the embedded axis body at `p = [1]`, `dp = [1]` with a
never-improving objective: the code computes `p[i] -= 2.*p[i]` (negating
the incremented value, probing at `-2`) and its "revert" lands the axis at
`-1`, not at the original value `1` that the claim describes (the claim
expects the second probe at `1 - 1 = 0` and a revert back to `1`). -/
theorem C2_code_eval :
    axisStep (fun _ => (1 : ℚ)) ([1], [1], 0) 0 = ([-1], [9 / 10], 0) ∧
    (-1 : ℚ) ≠ 1 :=
  ⟨by norm_num [axisStep], by norm_num⟩

/-- C4: the `return p, best_err` statement is indented inside the `while`
loop, so the function returns at the end of the first sweep: with
`tol = 1/5` and a constant objective it returns `([0,0,0], 1)` even though
the step-size sum after that sweep is `27/10 > 1/5` (so the claimed second
sweep never runs); and when `sum(dp) > tol` fails at entry the function
falls through and returns `None` rather than a pair. -/
theorem C4_code_eval :
    twiddleVec (fun _ => (1 : ℚ)) (1 / 5) = some ([0, 0, 0], 1) ∧
    (sweep (fun _ => (1 : ℚ)) ([0, 0, 0], [1, 1, 1], 1)).2.1.sum = 27 / 10 ∧
    (1 / 5 : ℚ) < 27 / 10 ∧
    twiddleVec (fun _ => (1 : ℚ)) 4 = none := by
  refine ⟨?_, ?_, by norm_num, ?_⟩ <;>
    norm_num [twiddleVec, sweep, axisStep, List.range_succ]
